import Mathlib

/-!
Verification of the pipeline-parallel multi-GPU generation engine
(`onnxruntime/core/session/pipeline_parallelism/multi_gpu_pipeline.cc`).

The development shallowly embeds the orchestration logic of the source file:

* the per-request, per-stage recurrent-state double buffering performed by
  `RequestExecutionFrame`'s constructor and `ExecuteRequest` (lines 75-155 and
  168-366 of the source);
* the pure next-token derivation `GetNewInputIdsFromLogits` and
  `GetNewPosnIds` (lines 368-414);
* the orchestrator: `CopyFinalOutput`, `ProcessResponses`,
  `SetupAndScheduleAllRequestsToStage0`, `ValidateRequest`, `Run` and
  `Validate` (lines 416-729).

Device memory, CUDA streams and thread scheduling are external effects; the
embedding models their observable consequences: which of the two preallocated
buffers of a ping-pong pair backs a tensor, tensor shapes, the host-visible
token contents, the log of closures scheduled onto stage queues, and the
stream of worker-produced tokens that the response queue delivers to the
orchestrator (passed in as an explicit list, since worker execution is
external concurrency).

Half-precision floats are kept abstract: logits elements live in an arbitrary
type `H`, and the conversion `HalfToFloat` used by the source for comparisons
is an arbitrary function `h2f : H → F` into a linear order, which models
casting to single precision for comparison.
-/

namespace MultiGpuPipeline

/-- Which of the two preallocated device buffers of a ping-pong pair backs a
recurrent-state tensor (`present_past_prealloc_buffer_1_vec` /
`present_past_prealloc_buffer_2_vec` in `RequestExecutionFrame::RunState`). -/
inductive Buf where
  | buf1
  | buf2
deriving DecidableEq

/-- The observable data of one entry of `RunState::output_val_map`: the
ping-pong buffer backing the device tensor and the size of its
sequence-length dimension (`seq_len_dim_index_in_state`). -/
structure StateEntry where
  buf : Buf
  seqLen : Nat
deriving DecidableEq

/-- The buffer selection of `ExecuteRequest` for a present-state output
(source lines 266-268): even `step_id` uses buffer-2 for the output (buffer-1
then holds the input past-state), odd `step_id` uses buffer-1. -/
def chooseOutputBuffer (step_id : Nat) : Buf :=
  if step_id % 2 = 0 then Buf.buf2 else Buf.buf1

/-- Initialisation of `output_val_map` in the `RequestExecutionFrame`
constructor (source lines 115-125): every `present_output_names[j]` is mapped
to a tensor over buffer-1 whose sequence-length dimension is 0. -/
def initOutputValMap (present_output_names : List String) :
    List (String × StateEntry) :=
  present_output_names.map (fun n => (n, ⟨Buf.buf1, 0⟩))

/-- `past_seq_len` as read by `ExecuteRequest` (source lines 241-243): the
sequence-length dimension of `output_val_map.at(present_output_names[0])`.
`none` models the out-of-range / missing-key crash. -/
def getPastSeqLen (present_output_names : List String)
    (output_val_map : List (String × StateEntry)) : Option Nat :=
  match present_output_names with
  | [] => none
  | n :: _ => (output_val_map.lookup n).map StateEntry.seqLen

/-- The effect of one `ExecuteRequest` call on `output_val_map` (source lines
234-275 and 319-336): compute `new_seq_len = input_seq_len + past_seq_len`,
bind every present-state output to a tensor over the buffer chosen by
`chooseOutputBuffer step_id` with sequence length `new_seq_len`, and after the
run store those tensors back into `output_val_map` (the harvest loop stores
exactly the present-state outputs it bound). -/
def execStepStateUpdate (present_output_names : List String) (step_id : Nat)
    (input_seq_len : Nat) (output_val_map : List (String × StateEntry)) :
    Option (List (String × StateEntry)) :=
  match getPastSeqLen present_output_names output_val_map with
  | none => none
  | some past_seq_len =>
    let new_seq_len := input_seq_len + past_seq_len
    some (present_output_names.map
      (fun n => (n, ⟨chooseOutputBuffer step_id, new_seq_len⟩)))

/-- `output_val_map` of one stage after steps `0, …, t-1` have executed for a
request, where `lens s` is the sequence length of the stage's
`input_to_use_for_seq_len` tensor at step `s` (the prefill length at step 0,
and 1 for the regenerated `[batch,1]` inputs afterwards). -/
def runStateSteps (present_output_names : List String) (lens : Nat → Nat) :
    Nat → Option (List (String × StateEntry))
  | 0 => some (initOutputValMap present_output_names)
  | t + 1 =>
    match runStateSteps present_output_names lens t with
    | none => none
    | some m => execStepStateUpdate present_output_names t (lens t) m

/-- Total sequence length accumulated after step `t`: the sum of the input
sequence lengths of steps `0, …, t`. -/
def seqLenAfter (lens : Nat → Nat) : Nat → Nat
  | 0 => lens 0
  | t + 1 => lens (t + 1) + seqLenAfter lens t

/-- `Contains` helper of the source (lines 53-60): `(found, index)` where
`index` is the position of the first occurrence of `to_find`, or `-1`. -/
def Contains (vec : List String) (to_find : String) : Bool × Int :=
  match vec.findIdx? (fun s => s = to_find) with
  | some i => (true, (i : Int))
  | none => (false, -1)

/-- The accumulator loop of `std::max_element` as used in
`GetNewInputIdsFromLogits` (source lines 396-398): scan the remaining
elements, keeping the index/value of the current best and replacing it only
when the comparator says the best is strictly less than the element (so the
first maximum wins). -/
def maxElemAux {H : Type} (lt : H → H → Bool) :
    List H → Nat → Nat × H → Nat × H
  | [], _, best => best
  | x :: rest, i, best =>
    maxElemAux lt rest (i + 1) (if lt best.2 x then (i, x) else best)

/-- `std::distance(first, std::max_element(first, last, lt))`: the index of
the first maximal element under `lt`; 0 on an empty range. -/
def maxElementIdx {H : Type} (lt : H → H → Bool) (xs : List H) : Nat :=
  match xs with
  | [] => 0
  | x :: rest => (maxElemAux lt rest 1 (0, x)).1

/-- The comparator passed to `std::max_element` (source line 398): compare
half-precision elements after converting each with `HalfToFloat`; `h2f` is
that conversion into an ordered type. -/
def HalfLt {H F : Type} [LinearOrder F] (h2f : H → F) (a b : H) : Bool :=
  decide (h2f a < h2f b)

/-- The batch start offsets visited by the loop
`for (batch_id = 0; batch_id < num_elems; batch_id += ltwo)`
(source line 394): `⌈num_elems / ltwo⌉` iterations with stride `ltwo`
(no iterations when `num_elems = 0`; `ltwo = 0` with positive `num_elems`
never terminates in the source and is excluded by the shape hypotheses). -/
def batchIds (num_elems ltwo : Nat) : List Nat :=
  (List.range ((num_elems + ltwo - 1) / ltwo)).map (fun i => i * ltwo)

/-- The three outputs of `GetNewInputIdsFromLogits`
(`input_ids`, `input_ids_shape`, `are_all_input_ids_eos_tokens`). -/
structure NewInputIdsResult where
  input_ids : List Int
  input_ids_shape : List Int
  are_all_input_ids_eos_tokens : Bool
deriving DecidableEq

/-- `GetNewInputIdsFromLogits` (source lines 368-408): for each batch lane,
take the last time-step's vocabulary slice of the logits
(`logits_data + batch_id + skip`, `logits_shape[2]` elements), find the index
of its first maximum under the `HalfToFloat` comparator, collect those
indices as the new input ids, set `input_ids_shape = [batch_size, 1]`, and
report all-EOS exactly when the number of lanes whose argmax equals
`eos_token` equals `batch_size`. -/
def GetNewInputIdsFromLogits {H F : Type} [LinearOrder F] (h2f : H → F)
    (batch_size : Int) (logits_data : List H) (logits_shape : List Int)
    (eos_token : Int) : NewInputIdsResult :=
  let num_elems :=
    (logits_shape.getD 0 0 * logits_shape.getD 1 0 * logits_shape.getD 2 0).toNat
  let ltwo := (logits_shape.getD 1 0 * logits_shape.getD 2 0).toNat
  let skip := ((logits_shape.getD 1 0 - 1) * logits_shape.getD 2 0).toNat
  let vocab := (logits_shape.getD 2 0).toNat
  let input_ids := (batchIds num_elems ltwo).map (fun batch_id =>
    ((maxElementIdx (HalfLt h2f)
      ((logits_data.drop (batch_id + skip)).take vocab) : Nat) : Int))
  let num_eos_tokens_predicted :=
    (input_ids.filter (fun id => id = eos_token)).length
  { input_ids := input_ids
    input_ids_shape := [batch_size, 1]
    are_all_input_ids_eos_tokens :=
      decide ((num_eos_tokens_predicted : Int) = batch_size) }

/-- The last time-step vocabulary slice `[batch_id, seq_len-1, :]` of a
`[b, s, v]` logits tensor for batch lane `i`: the `v` elements starting at
flat offset `i * (s * v) + (s - 1) * v` (the source's `batch_id + skip`). -/
def lastStepSlice {H : Type} (logits : List H) (s v i : Nat) : List H :=
  (logits.drop (i * (s * v) + (s - 1) * v)).take v

/-- `GetNewPosnIds` (source lines 410-414): every batch lane's new position id
is `orig_input_seq_len + step_id - 1`. -/
def GetNewPosnIds (batch_size : Int) (orig_input_seq_len : Int)
    (step_id : Nat) : List Int :=
  List.replicate batch_size.toNat (orig_input_seq_len + (step_id : Int) - 1)

/-- Per-stage model configuration (`PipelineConfig::ModelConfig`, fields read
by the source; `input_names`/`output_names` are filled from model
introspection in `PipelineSession::Init`). Dimension indices are modelled as
naturals since they index shape vectors. -/
structure ModelConfig where
  model_name : String := ""
  model_file_path : String := ""
  input_to_use_for_seq_len : String := ""
  seq_len_dim_index_in_input : Nat := 0
  batch_dim_index_in_input : Nat := 0
  batch_dim_index_in_state : Nat := 0
  seq_len_dim_index_in_state : Nat := 0
  seq_len_dim_in_inter_stage_output : Nat := 0
  batch_dim_in_inter_stage_output : Nat := 0
  device_id : Nat := 0
  inter_stage_output_input_map : List (String × String) := []
  past_input_names : List String := []
  present_output_names : List String := []
  input_names : List String := []
  output_names : List String := []
deriving DecidableEq

instance : Inhabited ModelConfig := ⟨{}⟩

/-- `PipelineConfig` of the source header, as read by the `.cc` file. -/
structure PipelineConfig where
  eos_token : Int := 0
  input_ids_name : String := ""
  position_ids_name : String := ""
  logits_name : String := ""
  max_seq_len : Nat := 0
  model_config_vec : List ModelConfig := []
  num_stages : Nat := 0
deriving DecidableEq

/-- `PipelineSession::Validate` (source lines 725-729): the body is
`ORT_UNUSED_PARAMETER(pcfg); /* TODO validate */ return true;` — it accepts
every configuration. -/
def Validate (_pcfg : PipelineConfig) : Bool :=
  true

/-- Element payload of a tensor: int64 host data (input ids, position ids) or
half-precision device data (logits, hidden states, k/v state). -/
inductive TensorData (H : Type) where
  | i64 : List Int → TensorData H
  | f16 : List H → TensorData H
deriving DecidableEq

/-- The observable content of an `OrtValue` tensor handle: its shape and
element data. Ownership transfers (`release()`) move these values around; the
embedding tracks the values, not the ownership. -/
structure TensorVal (H : Type) where
  shape : List Int
  data : TensorData H
deriving DecidableEq

instance {H : Type} : Inhabited (TensorVal H) := ⟨⟨[], TensorData.i64 []⟩⟩

/-- `GetTensorData<Ort::Float16_t>` on a tensor: extract the half-precision
payload. Reinterpreting an int64 tensor as halves is undefined behaviour in
the source and never exercised on the modelled paths; it is mapped to `[]`. -/
def halfData {H : Type} : TensorData H → List H
  | TensorData.f16 xs => xs
  | TensorData.i64 _ => []

/-- The `Token` work item passed between stages (header struct; fields as
used by the source). -/
structure Token (H : Type) where
  req_id : Nat
  step_id : Nat
  ort_value_names : List String
  ort_values : List (TensorVal H)
  error_msg : String
deriving DecidableEq

/-- The orchestrator-visible part of `RequestExecutionFrame`. -/
structure Frame where
  req_index : Nat
  batch_size : Int
  orig_input_seq_len : Int
  stage_id : Nat
deriving DecidableEq

/-- `OrtReq`: caller request slot. -/
structure OrtReq (H : Type) where
  input_names : List String
  input_values : List (TensorVal H)
deriving DecidableEq

/-- `OrtResp`: caller response slot (`output_meminfo` only affects device
placement inside `ExecuteRequest` and is not needed by the orchestrator
claims). -/
structure OrtResp (H : Type) where
  output_names : List String
  output_values : List (TensorVal H)
deriving DecidableEq

instance {H : Type} : Inhabited (OrtResp H) := ⟨⟨[], []⟩⟩

/-- Error codes of the statuses the source creates
(`ORT_INVALID_ARGUMENT` from `ValidateRequest`, `ORT_FAIL` from
`HandleAndReturnFailure`). -/
inductive OrtErrorCode where
  | ORT_INVALID_ARGUMENT
  | ORT_FAIL
deriving DecidableEq

/-- An `OrtStatus` value: error code plus message. A `Run` result of `none`
models the `nullptr` success status. -/
structure StatusVal where
  code : OrtErrorCode
  msg : String
deriving DecidableEq

/-- The loop body of `PipelineSession::CopyFinalOutput` (source lines
423-438): walk the requested output names with their slot index; for each
name found among the token's carried names, overwrite the slot's value at
that index with the token's tensor at the found position; on the first
missing name stop with the error message. Returns the (possibly partially)
updated values and the error, mirroring the in-place mutation of
`ort_resp.output_values` that persists even when a later name fails. -/
def copyFinalOutputLoop {H : Type} (tok_names : List String)
    (tok_values : List (TensorVal H)) :
    Nat → List String → List (TensorVal H) →
    List (TensorVal H) × Option String
  | _, [], vals => (vals, none)
  | resp_index, oname :: rest, vals =>
    let ex := Contains tok_names oname
    if ex.1 then
      copyFinalOutputLoop tok_names tok_values (resp_index + 1) rest
        (vals.set resp_index (tok_values.getD ex.2.toNat default))
    else
      (vals, some ("Error: Output " ++ oname ++
        " is not produced by the final stage\n"))

/-- `PipelineSession::CopyFinalOutput` (source lines 423-438) on a response
slot. The source routes the failure through `HandleAndReturnFailure`, which
drains every stage's queue (an external scheduling effect) and creates an
`ORT_FAIL` status with this message. -/
def CopyFinalOutput {H : Type} (token : Token H) (ort_resp : OrtResp H) :
    List (TensorVal H) × Option String :=
  copyFinalOutputLoop token.ort_value_names token.ort_values 0
    ort_resp.output_names ort_resp.output_values

/-- The orchestrator state threaded through `ProcessResponses`: the
`req_id → RequestExecutionFrame` map, the count of completed requests, the
caller's response slots (mutated in place by the source), and the log of
closures scheduled onto stage queues as `(stage_id, token)` pairs. -/
structure OrchState (H : Type) where
  req_frame_map : List (Nat × Frame)
  req_processed : Nat
  resp_list : List (OrtResp H)
  scheduled : List (Nat × Token H)
deriving DecidableEq

/-- The shared completion path of `ProcessResponses` (source lines 538-547
and 567-576): `CopyFinalOutput` into the response slot at the frame's
`req_index`; on failure return the `ORT_FAIL` status (partial slot writes
persist); on success erase the request's frame, count the request processed,
and schedule nothing. -/
def finishRequest {H : Type} (st : OrchState H) (frame : Frame)
    (token : Token H) : OrchState H × Option StatusVal :=
  let resp := st.resp_list.getD frame.req_index default
  let copied := CopyFinalOutput token resp
  let newResp : OrtResp H := { resp with output_values := copied.1 }
  let newRespList := st.resp_list.set frame.req_index newResp
  let st1 : OrchState H := { st with resp_list := newRespList }
  match copied.2 with
  | some msg => (st1, some ⟨OrtErrorCode.ORT_FAIL, msg⟩)
  | none =>
    let erased := st1.req_frame_map.filter (fun p => p.1 != token.req_id)
    ({ st1 with req_frame_map := erased
                req_processed := st1.req_processed + 1 }, none)

/-- The next-token derivation performed by `ProcessResponses` between steps
(source lines 552-564): locate `logits_name` among the token's carried names,
take the corresponding carried tensor, and run `GetNewInputIdsFromLogits` on
its half data and shape with the frame's batch size. -/
def newIdsResult {H F : Type} [LinearOrder F] (h2f : H → F)
    (pcfg : PipelineConfig) (batch_size : Int) (token : Token H) :
    NewInputIdsResult :=
  let rc := Contains token.ort_value_names pcfg.logits_name
  let logits_ort_val := token.ort_values.getD rc.2.toNat default
  GetNewInputIdsFromLogits h2f batch_size (halfData logits_ort_val.data)
    logits_ort_val.shape pcfg.eos_token

/-- One iteration of the `ProcessResponses` dispatch loop on a popped token
(source lines 526-614): check `error_msg`, advance the frame's stage id
modulo `num_stages`; on wrap-around to stage 0 increment the step id and
either finish (step count reached), fail (no logits), finish early (all
lanes predicted `eos_token`), or rewrite the token with the regenerated
`input_ids`/`position_ids` host tensors and schedule it to stage 0; on a
non-final stage re-schedule the token (which already carries the inter-stage
payload) to the next stage. -/
def processOneResponse {H F : Type} [LinearOrder F] (h2f : H → F)
    (pcfg : PipelineConfig) (num_steps : Int) (st : OrchState H)
    (token : Token H) : OrchState H × Option StatusVal :=
  match st.req_frame_map.lookup token.req_id with
  | none => (st, some ⟨OrtErrorCode.ORT_FAIL, "request id not in frame map"⟩)
  | some frame0 =>
    if token.error_msg ≠ "" then
      (st, some ⟨OrtErrorCode.ORT_FAIL, token.error_msg⟩)
    else
      let frame : Frame :=
        { frame0 with stage_id := (frame0.stage_id + 1) % pcfg.num_stages }
      let updatedMap := st.req_frame_map.map
        (fun p => if p.1 = token.req_id then (p.1, frame) else p)
      let st1 : OrchState H := { st with req_frame_map := updatedMap }
      if frame.stage_id = 0 then
        let step_id := token.step_id + 1
        if (step_id : Int) = num_steps then
          finishRequest st1 frame token
        else
          let rc := Contains token.ort_value_names pcfg.logits_name
          if rc.1 = false then
            (st1, some ⟨OrtErrorCode.ORT_FAIL,
              "Did not get logits in the output"⟩)
          else
            let r := newIdsResult h2f pcfg frame.batch_size token
            if r.are_all_input_ids_eos_tokens then
              finishRequest st1 frame token
            else
              let posn_ids := GetNewPosnIds frame.batch_size
                frame.orig_input_seq_len step_id
              let token' : Token H :=
                { req_id := token.req_id
                  step_id := step_id
                  ort_value_names :=
                    [pcfg.input_ids_name, pcfg.position_ids_name]
                  ort_values :=
                    [⟨r.input_ids_shape, TensorData.i64 r.input_ids⟩,
                     ⟨r.input_ids_shape, TensorData.i64 posn_ids⟩]
                  error_msg := "" }
              ({ st1 with
                  scheduled := st1.scheduled ++ [(frame.stage_id, token')] },
                none)
      else
        ({ st1 with
            scheduled := st1.scheduled ++ [(frame.stage_id, token)] }, none)

/-- The `ProcessResponses` loop (source lines 511-618): while fewer than
`num_reqs` requests have completed, pop the next token the workers delivered
to the response queue and dispatch it; an exhausted stream models the
`WaitAndPop` timeout (`HandleAndReturnFailure`), and any dispatch error stops
the loop with that status. -/
def processResponses {H F : Type} [LinearOrder F] (h2f : H → F)
    (pcfg : PipelineConfig) (num_steps : Int) (num_reqs : Nat) :
    List (Token H) → OrchState H → OrchState H × Option StatusVal
  | [], st =>
    if num_reqs ≤ st.req_processed then (st, none)
    else (st, some ⟨OrtErrorCode.ORT_FAIL,
      "Request processing timed out after 1000 ms"⟩)
  | token :: rest, st =>
    if num_reqs ≤ st.req_processed then (st, none)
    else
      match processOneResponse h2f pcfg num_steps st token with
      | (st1, none) => processResponses h2f pcfg num_steps num_reqs rest st1
      | (st1, some e) => (st1, some e)

/-- `ValidateRequest`'s per-slot loop (source lines 625-641): the first slot
whose request name/value counts or response name/value counts differ yields
an `ORT_INVALID_ARGUMENT` status. -/
def validateRequestLoop {H : Type} :
    Nat → List (OrtReq H) → List (OrtResp H) → Option StatusVal
  | _, [], _ => none
  | _, _ :: _, [] => none
  | i, req :: reqs, resp :: resps =>
    if req.input_names.length ≠ req.input_values.length then
      some ⟨OrtErrorCode.ORT_INVALID_ARGUMENT,
        "Size of request names and OrtValues differ for index " ++ toString i⟩
    else if resp.output_names.length ≠ resp.output_values.length then
      some ⟨OrtErrorCode.ORT_INVALID_ARGUMENT,
        "Size of response names and OrtValues differ for index " ++ toString i⟩
    else validateRequestLoop (i + 1) reqs resps

/-- `ValidateRequest` (source lines 620-644). -/
def ValidateRequest {H : Type} (req_list : List (OrtReq H))
    (resp_list : List (OrtResp H)) : Option StatusVal :=
  if req_list.length ≠ resp_list.length then
    some ⟨OrtErrorCode.ORT_INVALID_ARGUMENT,
      "Size of request and response lists differ."⟩
  else validateRequestLoop 0 req_list resp_list

/-- The per-request loop of `SetupAndScheduleAllRequestsToStage0` (source
lines 466-509): derive a fresh request id (the source uses a monotonically
increasing counter; modelled as `req_idx + 1` within the run), read
`batch_size` and `orig_input_seq_len` from the shape of the request input
named by stage 0's `input_to_use_for_seq_len`, create the frame at stage 0,
initialise the frame's token with step 0 and the caller-supplied inputs, and
schedule it onto stage 0's queue. -/
def setupLoop {H : Type} (pcfg : PipelineConfig) :
    Nat → List (OrtReq H) → List (Nat × Frame) × List (Nat × Token H)
  | _, [] => ([], [])
  | req_idx, one_req :: rest =>
    let req_id := req_idx + 1
    let mcfg0 := pcfg.model_config_vec.getD 0 default
    let rc := Contains one_req.input_names mcfg0.input_to_use_for_seq_len
    let shape := (one_req.input_values.getD rc.2.toNat default).shape
    let orig_seq_len := shape.getD mcfg0.seq_len_dim_index_in_input 0
    let batch_size := shape.getD mcfg0.batch_dim_index_in_input 0
    let frame : Frame := ⟨req_idx, batch_size, orig_seq_len, 0⟩
    let token : Token H := ⟨req_id, 0, one_req.input_names,
      one_req.input_values, ""⟩
    let (frames, sched) := setupLoop pcfg (req_idx + 1) rest
    ((req_id, frame) :: frames, (0, token) :: sched)

/-- `SetupAndScheduleAllRequestsToStage0` (source lines 466-509). -/
def SetupAndScheduleAllRequestsToStage0 {H : Type} (pcfg : PipelineConfig)
    (req_list : List (OrtReq H)) :
    List (Nat × Frame) × List (Nat × Token H) :=
  setupLoop pcfg 0 req_list

/-- `PipelineSession::Run` (source lines 649-663): validate the argument
lists; on failure return the `ORT_INVALID_ARGUMENT` status with nothing set
up, no frame created and nothing scheduled; otherwise set up and schedule
every request to stage 0 and enter the response-processing loop.
`worker_tokens` is the stream of tokens the stage workers push onto the
response queue (worker execution is external concurrency). The returned
state carries the final contents of the caller's `resp_list`. -/
def Run {H F : Type} [LinearOrder F] (h2f : H → F) (pcfg : PipelineConfig)
    (req_list : List (OrtReq H)) (resp_list : List (OrtResp H))
    (num_steps : Int) (worker_tokens : List (Token H)) :
    OrchState H × Option StatusVal :=
  match ValidateRequest req_list resp_list with
  | some status =>
    ({ req_frame_map := []
       req_processed := 0
       resp_list := resp_list
       scheduled := [] }, some status)
  | none =>
    let (frames, sched) := SetupAndScheduleAllRequestsToStage0 pcfg req_list
    let st0 : OrchState H :=
      { req_frame_map := frames
        req_processed := 0
        resp_list := resp_list
        scheduled := sched }
    processResponses h2f pcfg num_steps req_list.length worker_tokens st0

/-- Concrete single-stage pipeline configuration used to exercise `Run` on a
closed scenario (stage 0 reads `batch_size`/`orig_input_seq_len` from
`input_ids`, batch dimension 0, sequence dimension 1). -/
def pcfgEx : PipelineConfig :=
  { eos_token := 99
    input_ids_name := "input_ids"
    position_ids_name := "position_ids"
    logits_name := "logits"
    max_seq_len := 8
    model_config_vec := [{ input_to_use_for_seq_len := "input_ids"
                           seq_len_dim_index_in_input := 1
                           batch_dim_index_in_input := 0 }]
    num_stages := 1 }

/-- Two concrete requests, each a `[1, 3]` `input_ids` tensor. -/
def reqsEx : List (OrtReq Int) :=
  [⟨["input_ids"], [⟨[1, 3], TensorData.i64 [7, 8, 9]⟩]⟩,
   ⟨["input_ids"], [⟨[1, 3], TensorData.i64 [7, 8, 9]⟩]⟩]

/-- Two concrete response slots, each requesting `logits` with a placeholder
preallocated value. -/
def respsEx : List (OrtResp Int) :=
  [⟨["logits"], [⟨[], TensorData.i64 []⟩]⟩,
   ⟨["logits"], [⟨[], TensorData.i64 []⟩]⟩]

/-- Worker-delivered tokens for the scenario: request 1 returns its final
logits successfully, then request 2 reports a worker-side exception. -/
def toksEx : List (Token Int) :=
  [⟨1, 0, ["logits"], [⟨[1, 1, 2], TensorData.f16 [3, 7]⟩], ""⟩,
   ⟨2, 0, [], [], "Error in processing request id: 2 with exception: boom"⟩]

/-- Concrete pipeline configuration whose stage-0 `past_input_names` and
`present_output_names` have different lengths (one recurrent-state input
name, zero present-state output names). -/
def mismatchedStateCfg : PipelineConfig :=
  { model_config_vec := [{ past_input_names := ["past_key_0"]
                           present_output_names := [] }]
    num_stages := 1 }

lemma lookup_map_head (n0 : String) (rest : List String)
    (f : String → StateEntry) :
    ((n0 :: rest).map (fun n => (n, f n))).lookup n0 = some (f n0) := by
  simp [List.lookup]

lemma runStateSteps_closed (n0 : String) (rest : List String)
    (lens : Nat → Nat) :
    ∀ t, runStateSteps (n0 :: rest) lens (t + 1) =
      some ((n0 :: rest).map
        (fun n => (n, ⟨chooseOutputBuffer t, seqLenAfter lens t⟩))) := by
  intro t
  induction t with
  | zero =>
    simp only [runStateSteps, initOutputValMap, execStepStateUpdate,
      getPastSeqLen]
    rw [lookup_map_head n0 rest (fun _ => ⟨Buf.buf1, 0⟩)]
    simp [seqLenAfter]
  | succ t ih =>
    simp only [runStateSteps] at ih ⊢
    rw [ih]
    simp only [execStepStateUpdate, getPastSeqLen]
    rw [lookup_map_head n0 rest
      (fun _ => ⟨chooseOutputBuffer t, seqLenAfter lens t⟩)]
    simp [seqLenAfter]

lemma chooseOutputBuffer_succ_ne (t : Nat) :
    chooseOutputBuffer t ≠ chooseOutputBuffer (t + 1) := by
  unfold chooseOutputBuffer
  rcases Nat.even_or_odd t with h | h
  · have h0 : t % 2 = 0 := Nat.even_iff.mp h
    have h1 : (t + 1) % 2 = 1 := by omega
    simp [h0, h1]
  · have h0 : t % 2 = 1 := Nat.odd_iff.mp h
    have h1 : (t + 1) % 2 = 0 := by omega
    simp [h0, h1]

lemma seqLenAfter_eq (lens : Nat → Nat) (orig : Nat)
    (h0 : lens 0 = orig) (h1 : ∀ s, lens (s + 1) = 1) :
    ∀ t, seqLenAfter lens t = orig + t := by
  intro t
  induction t with
  | zero => simpa [seqLenAfter] using h0
  | succ t ih =>
    simp only [seqLenAfter, h1, ih]
    omega

/-- Claim C1: `ExecuteRequest` binds each present-state output over buffer-2
of its slot's ping-pong pair when the token's `step_id` is even and over
buffer-1 when it is odd; hence at every step `t ≥ 1` the tensor bound as the
input past-state (the handle saved into `output_val_map` at step `t - 1`,
buffer-1 initially) and the tensor bound as the output present-state reside
in different preallocated buffers of the pair. -/
theorem present_state_pingpong (n0 : String) (rest : List String)
    (lens : Nat → Nat) (t : Nat) (m : List (String × StateEntry))
    (ht : 1 ≤ t)
    (hm : runStateSteps (n0 :: rest) lens t = some m) :
    chooseOutputBuffer t = (if t % 2 = 0 then Buf.buf2 else Buf.buf1) ∧
    ∀ p ∈ m, p.2.buf ≠ chooseOutputBuffer t := by
  refine ⟨rfl, ?_⟩
  obtain ⟨s, rfl⟩ : ∃ s, t = s + 1 := ⟨t - 1, by omega⟩
  rw [runStateSteps_closed] at hm
  have hm' := Option.some.inj hm
  intro p hp
  rw [← hm'] at hp
  rcases List.mem_map.mp hp with ⟨n, _, rfl⟩
  exact chooseOutputBuffer_succ_ne s

/-- Witness for `present_state_pingpong` at a concrete instance: one
recurrent-state slot, prefill length 3, checking step 1. -/
theorem present_state_pingpong_witness :
    chooseOutputBuffer 1 = (if 1 % 2 = 0 then Buf.buf2 else Buf.buf1) ∧
    ∀ p ∈ [("present_0", (⟨Buf.buf2, 3⟩ : StateEntry))],
      p.2.buf ≠ chooseOutputBuffer 1 :=
  present_state_pingpong "present_0" [] (fun _ => 3) 1
    [("present_0", ⟨Buf.buf2, 3⟩)] (by decide) (by decide)

/-- Claim C2: after step `t` completes (the prefill being step 0 with past
sequence length initialised to 0), the sequence-length dimension of every
tensor stored in a stage's `output_val_map` equals `orig_input_seq_len + t`,
because `ExecuteRequest` binds state outputs with
`new_seq_len = input_seq_len + past_seq_len` and every post-prefill step
carries input tensors of sequence length 1. -/
theorem output_val_map_seqlen (n0 : String) (rest : List String)
    (lens : Nat → Nat) (orig : Nat) (t : Nat)
    (m : List (String × StateEntry))
    (h0 : lens 0 = orig)
    (h1 : ∀ s, lens (s + 1) = 1)
    (hm : runStateSteps (n0 :: rest) lens (t + 1) = some m) :
    ∀ p ∈ m, p.2.seqLen = orig + t := by
  rw [runStateSteps_closed] at hm
  have hm' := Option.some.inj hm
  intro p hp
  rw [← hm'] at hp
  rcases List.mem_map.mp hp with ⟨n, _, rfl⟩
  simpa using seqLenAfter_eq lens orig h0 h1 t

/-- Witness for `output_val_map_seqlen`: two state slots, prefill length 4,
decoding inputs of length 1, after step 2 every entry has sequence length
`4 + 2 = 6`. -/
theorem output_val_map_seqlen_witness :
    (runStateSteps ["present_0", "present_1"]
        (fun s => if s = 0 then 4 else 1) 3 =
      some [("present_0", (⟨Buf.buf2, 6⟩ : StateEntry)),
            ("present_1", (⟨Buf.buf2, 6⟩ : StateEntry))]) ∧
    ∀ p ∈ [("present_0", (⟨Buf.buf2, 6⟩ : StateEntry)),
           ("present_1", (⟨Buf.buf2, 6⟩ : StateEntry))],
      p.2.seqLen = 4 + 2 :=
  ⟨by decide,
   output_val_map_seqlen "present_0" ["present_1"]
    (fun s => if s = 0 then 4 else 1) 4 2
    [("present_0", ⟨Buf.buf2, 6⟩), ("present_1", ⟨Buf.buf2, 6⟩)]
    rfl (fun _ => rfl) (by decide)⟩

lemma maxElemAux_spec {H F : Type} [LinearOrder F] (h2f : H → F)
    (l : List H) : ∀ (i bi : Nat) (bv : H),
    ((maxElemAux (HalfLt h2f) l i (bi, bv)).1 = bi ∧
     (maxElemAux (HalfLt h2f) l i (bi, bv)).2 = bv ∧
     ∀ z ∈ l, h2f z ≤ h2f bv) ∨
    (∃ j, ∃ hj : j < l.length,
     (maxElemAux (HalfLt h2f) l i (bi, bv)).1 = i + j ∧
     (maxElemAux (HalfLt h2f) l i (bi, bv)).2 = l[j] ∧
     h2f bv < h2f l[j] ∧
     (∀ k, ∀ hk : k < l.length, k < j → h2f l[k] < h2f l[j]) ∧
     (∀ z ∈ l, h2f z ≤ h2f l[j])) := by
  induction l with
  | nil =>
    intro i bi bv
    exact Or.inl ⟨rfl, rfl, by simp⟩
  | cons x rest ih =>
    intro i bi bv
    by_cases hlt : h2f bv < h2f x
    · have hstep : maxElemAux (HalfLt h2f) (x :: rest) i (bi, bv) =
          maxElemAux (HalfLt h2f) rest (i + 1) (i, x) := by
        simp [maxElemAux, HalfLt, hlt]
      rw [hstep]
      rcases ih (i + 1) i x with ⟨h1, h2, h3⟩ | ⟨j, hj, h1, h2, h4, h5, h6⟩
      · refine Or.inr ⟨0, by simp, ?_, ?_, ?_, ?_, ?_⟩
        · simpa using h1
        · simpa using h2
        · simpa using hlt
        · intro k hk hk0
          omega
        · intro z hz
          rcases List.mem_cons.mp hz with rfl | hz
          · simp
          · simpa using h3 z hz
      · refine Or.inr ⟨j + 1, by simpa using Nat.succ_lt_succ hj, ?_, ?_, ?_,
          ?_, ?_⟩
        · rw [h1]; omega
        · simpa using h2
        · simpa using lt_trans hlt h4
        · intro k hk hkj
          match k with
          | 0 => simpa using h4
          | k + 1 =>
            have hk' : k < rest.length := by simpa using hk
            simpa using h5 k hk' (by omega)
        · intro z hz
          rcases List.mem_cons.mp hz with rfl | hz
          · simpa using le_of_lt h4
          · simpa using h6 z hz
    · have hstep : maxElemAux (HalfLt h2f) (x :: rest) i (bi, bv) =
          maxElemAux (HalfLt h2f) rest (i + 1) (bi, bv) := by
        simp [maxElemAux, HalfLt, hlt]
      rw [hstep]
      have hxle : h2f x ≤ h2f bv := not_lt.mp hlt
      rcases ih (i + 1) bi bv with ⟨h1, h2, h3⟩ | ⟨j, hj, h1, h2, h4, h5, h6⟩
      · refine Or.inl ⟨h1, h2, ?_⟩
        intro z hz
        rcases List.mem_cons.mp hz with rfl | hz
        · exact hxle
        · exact h3 z hz
      · refine Or.inr ⟨j + 1, by simpa using Nat.succ_lt_succ hj, ?_, ?_, ?_,
          ?_, ?_⟩
        · rw [h1]; omega
        · simpa using h2
        · simpa using h4
        · intro k hk hkj
          match k with
          | 0 => simpa using lt_of_le_of_lt hxle h4
          | k + 1 =>
            have hk' : k < rest.length := by simpa using hk
            simpa using h5 k hk' (by omega)
        · intro z hz
          rcases List.mem_cons.mp hz with rfl | hz
          · simpa using le_trans hxle (le_of_lt h4)
          · simpa using h6 z hz

lemma maxElementIdx_spec {H F : Type} [LinearOrder F] (h2f : H → F)
    (xs : List H) (hxs : xs ≠ []) :
    ∃ hr : maxElementIdx (HalfLt h2f) xs < xs.length,
      (∀ j, ∀ hj : j < xs.length,
        h2f xs[j] ≤ h2f xs[maxElementIdx (HalfLt h2f) xs]) ∧
      (∀ j, ∀ hj : j < xs.length, j < maxElementIdx (HalfLt h2f) xs →
        h2f xs[j] < h2f xs[maxElementIdx (HalfLt h2f) xs]) := by
  match xs, hxs with
  | x :: rest, _ =>
    rcases maxElemAux_spec h2f rest 1 0 x with ⟨h1, h2, h3⟩ |
      ⟨j, hj, h1, h2, h4, h5, h6⟩
    · have hidx : maxElementIdx (HalfLt h2f) (x :: rest) = 0 := by
        simpa [maxElementIdx] using h1
      rw [hidx]
      refine ⟨by simp, ?_, ?_⟩
      · intro j hjl
        match j with
        | 0 => simp
        | j + 1 =>
          have hj' : j < rest.length := by simpa using hjl
          simpa using h3 rest[j] (List.getElem_mem hj')
      · intro j hjl hj0
        omega
    · have hidx : maxElementIdx (HalfLt h2f) (x :: rest) = j + 1 := by
        simp only [maxElementIdx]
        omega
      rw [hidx]
      refine ⟨by simpa using Nat.succ_lt_succ hj, ?_, ?_⟩
      · intro k hkl
        match k with
        | 0 => simpa using le_of_lt h4
        | k + 1 =>
          have hk' : k < rest.length := by simpa using hkl
          simpa using h6 rest[k] (List.getElem_mem hk')
      · intro k hkl hkj
        match k with
        | 0 => simpa using h4
        | k + 1 =>
          have hk' : k < rest.length := by simpa using hkl
          simpa using h5 k hk' (by omega)

lemma batchIds_mul (b L : Nat) (hL : 0 < L) :
    batchIds (b * L) L = (List.range b).map (fun i => i * L) := by
  unfold batchIds
  have h1 : b * L + L - 1 = L - 1 + L * b := by
    have := Nat.mul_comm b L
    omega
  rw [h1, Nat.add_mul_div_left _ _ hL, Nat.div_eq_of_lt (by omega),
    Nat.zero_add]

lemma GetNewInputIdsFromLogits_eval {H F : Type} [LinearOrder F]
    (h2f : H → F) (bsz : Int) (logits : List H) (b s v : Nat) (eos : Int)
    (hs : 0 < s) (hv : 0 < v) :
    GetNewInputIdsFromLogits h2f bsz logits
        [(b : Int), (s : Int), (v : Int)] eos =
      { input_ids := (List.range b).map (fun i =>
          ((maxElementIdx (HalfLt h2f) (lastStepSlice logits s v i) : Nat) :
            Int))
        input_ids_shape := [bsz, 1]
        are_all_input_ids_eos_tokens := decide
          (((((List.range b).map (fun i =>
              ((maxElementIdx (HalfLt h2f) (lastStepSlice logits s v i) :
                Nat) : Int))).filter (fun id => id = eos)).length : Int) =
            bsz) } := by
  have e1 : ((b : Int) * ((s : Int) * (v : Int))).toNat = b * (s * v) := by
    have h : ((b : Int) * ((s : Int) * (v : Int))) =
        ((b * (s * v) : Nat) : Int) := by push_cast; ring
    rw [h]
    omega
  have e2 : ((s : Int) * (v : Int)).toNat = s * v := by
    have h : ((s : Int) * (v : Int)) = ((s * v : Nat) : Int) := by
      push_cast; ring
    rw [h]
    omega
  have e3 : (((s : Int) - 1) * (v : Int)).toNat = (s - 1) * v := by
    have h : (((s : Int) - 1) * (v : Int)) = (((s - 1) * v : Nat) : Int) := by
      push_cast [Nat.cast_sub hs]
      ring
    rw [h]
    omega
  have e4 : ((v : Int)).toNat = v := by omega
  unfold GetNewInputIdsFromLogits
  simp only [List.getD_cons_zero, List.getD_cons_succ, mul_assoc, e1, e2, e3,
    e4, batchIds_mul b (s * v) (Nat.mul_pos hs hv), List.map_map]
  simp only [Function.comp_def, lastStepSlice, mul_assoc]

/-- Claim C3: on a `[b, s, v]` logits tensor, `GetNewInputIdsFromLogits`
produces one id per batch lane, each id the index of the maximum of that
lane's last time-step vocabulary slice `[batch_id, seq_len-1, :]` under the
`HalfToFloat` conversion (the comparison in single precision of the
half-precision elements), ties resolving to the lowest index; it sets
`input_ids_shape = [batch_size, 1]` and reports all-EOS exactly when the
number of lanes whose argmax equals `eos_token` equals `batch_size`. -/
theorem GetNewInputIdsFromLogits_spec {H F : Type} [LinearOrder F]
    (h2f : H → F) (b s v : Nat) (logits : List H) (eos : Int)
    (r : NewInputIdsResult)
    (hs : 0 < s) (hv : 0 < v)
    (hlen : logits.length = b * s * v)
    (hr : r = GetNewInputIdsFromLogits h2f (b : Int) logits
      [(b : Int), (s : Int), (v : Int)] eos) :
    r.input_ids_shape = [(b : Int), 1] ∧
    r.input_ids.length = b ∧
    (∀ i, i < b →
      ∃ k, ∃ hk : k < (lastStepSlice logits s v i).length,
        r.input_ids[i]? = some ((k : Nat) : Int) ∧
        (∀ j, ∀ hj : j < (lastStepSlice logits s v i).length,
          h2f (lastStepSlice logits s v i)[j] ≤
            h2f (lastStepSlice logits s v i)[k]) ∧
        (∀ j, ∀ hj : j < (lastStepSlice logits s v i).length, j < k →
          h2f (lastStepSlice logits s v i)[j] <
            h2f (lastStepSlice logits s v i)[k])) ∧
    (r.are_all_input_ids_eos_tokens = true ↔
      ((r.input_ids.filter (fun id => id = eos)).length : Int) = (b : Int))
    := by
  subst hr
  rw [GetNewInputIdsFromLogits_eval h2f (b : Int) logits b s v eos hs hv]
  refine ⟨rfl, by simp, ?_, by simp⟩
  intro i hi
  have hslen : (lastStepSlice logits s v i).length = v := by
    unfold lastStepSlice
    rw [List.length_take, List.length_drop, hlen]
    have hsv : (s - 1) * v + v = s * v := by
      have h1 : (s - 1) * v = s * v - 1 * v := by rw [Nat.sub_mul]
      have h2 : v ≤ s * v := Nat.le_mul_of_pos_left v hs
      omega
    have hle : i * (s * v) + s * v ≤ b * (s * v) := by
      have h3 : (i + 1) * (s * v) ≤ b * (s * v) :=
        Nat.mul_le_mul_right _ (by omega)
      have h4 : (i + 1) * (s * v) = i * (s * v) + s * v := by
        rw [Nat.succ_mul]
      omega
    have hassoc : b * s * v = b * (s * v) := mul_assoc b s v
    omega
  have hne : lastStepSlice logits s v i ≠ [] := by
    intro hcon
    rw [hcon] at hslen
    simp at hslen
    omega
  obtain ⟨hr2, hmax, hfirst⟩ := maxElementIdx_spec h2f
    (lastStepSlice logits s v i) hne
  refine ⟨maxElementIdx (HalfLt h2f) (lastStepSlice logits s v i), hr2,
    ?_, hmax, hfirst⟩
  simp [List.getElem?_map, List.getElem?_range, hi]

/-- Witness for `GetNewInputIdsFromLogits_spec`: a concrete `[2, 1, 2]`
logits tensor (half values modelled by integers, conversion the identity),
lane 0 maximal at index 1, lane 1 maximal at index 0, `eos_token = 1`. -/
theorem GetNewInputIdsFromLogits_spec_witness :
    (GetNewInputIdsFromLogits (fun x => x : Int → Int) ((2 : Nat) : Int)
        [0, 5, 5, 0] [((2 : Nat) : Int), ((1 : Nat) : Int),
          ((2 : Nat) : Int)] 1).input_ids_shape = [((2 : Nat) : Int), 1] ∧
    (GetNewInputIdsFromLogits (fun x => x : Int → Int) ((2 : Nat) : Int)
        [0, 5, 5, 0] [((2 : Nat) : Int), ((1 : Nat) : Int),
          ((2 : Nat) : Int)] 1).input_ids.length = 2 ∧
    (∀ i, i < 2 →
      ∃ k, ∃ hk : k < (lastStepSlice [(0 : Int), 5, 5, 0] 1 2 i).length,
        (GetNewInputIdsFromLogits (fun x => x : Int → Int) ((2 : Nat) : Int)
          [0, 5, 5, 0] [((2 : Nat) : Int), ((1 : Nat) : Int),
            ((2 : Nat) : Int)] 1).input_ids[i]? = some ((k : Nat) : Int) ∧
        (∀ j, ∀ hj : j < (lastStepSlice [(0 : Int), 5, 5, 0] 1 2 i).length,
          (fun x => x : Int → Int) (lastStepSlice [(0 : Int), 5, 5, 0] 1 2 i)[j] ≤
            (fun x => x : Int → Int) (lastStepSlice [(0 : Int), 5, 5, 0] 1 2 i)[k]) ∧
        (∀ j, ∀ hj : j < (lastStepSlice [(0 : Int), 5, 5, 0] 1 2 i).length,
          j < k →
          (fun x => x : Int → Int) (lastStepSlice [(0 : Int), 5, 5, 0] 1 2 i)[j] <
            (fun x => x : Int → Int) (lastStepSlice [(0 : Int), 5, 5, 0] 1 2 i)[k])) ∧
    ((GetNewInputIdsFromLogits (fun x => x : Int → Int) ((2 : Nat) : Int)
        [0, 5, 5, 0] [((2 : Nat) : Int), ((1 : Nat) : Int),
          ((2 : Nat) : Int)] 1).are_all_input_ids_eos_tokens = true ↔
      (((GetNewInputIdsFromLogits (fun x => x : Int → Int) ((2 : Nat) : Int)
        [0, 5, 5, 0] [((2 : Nat) : Int), ((1 : Nat) : Int),
          ((2 : Nat) : Int)] 1).input_ids.filter
            (fun id => id = 1)).length : Int) = ((2 : Nat) : Int)) :=
  GetNewInputIdsFromLogits_spec (fun x => x : Int → Int) 2 1 2
    [0, 5, 5, 0] 1 _ (by decide) (by decide) (by decide) rfl

lemma Contains_fst_true_iff (vec : List String) (n : String) :
    (Contains vec n).1 = true ↔ n ∈ vec := by
  unfold Contains
  cases h : vec.findIdx? (fun s => s = n) with
  | some i =>
    simp only [true_iff]
    have h2 := List.findIdx?_eq_some_iff_getElem.mp h
    rcases h2 with ⟨hi, hp, _⟩
    have : vec[i] = n := by simpa using hp
    rw [← this]
    exact List.getElem_mem hi
  | none =>
    rw [List.findIdx?_eq_none_iff] at h
    constructor
    · intro hFT
      exact absurd hFT (by simp)
    · intro hmem
      have := h n hmem
      simp at this

lemma Contains_snd_spec (vec : List String) (n : String) (h : n ∈ vec) :
    ∃ i, ∃ hi : i < vec.length, (Contains vec n).2 = (i : Int) ∧
      vec[i] = n ∧
      ∀ j, ∀ hj : j < vec.length, j < i → vec[j] ≠ n := by
  have hsome : (Contains vec n).1 = true := (Contains_fst_true_iff vec n).mpr h
  unfold Contains at hsome ⊢
  cases hf : vec.findIdx? (fun s => s = n) with
  | none => rw [hf] at hsome; simp at hsome
  | some i =>
    rcases List.findIdx?_eq_some_iff_getElem.mp hf with ⟨hi, hp, hprev⟩
    refine ⟨i, hi, by simp, by simpa using hp, ?_⟩
    intro j hj hji
    have := hprev j hji
    simpa using this

lemma take_succ_set {α : Type} (x : α) :
    ∀ (l : List α) (i : Nat), i < l.length →
      (l.set i x).take (i + 1) = l.take i ++ [x] := by
  intro l
  induction l with
  | nil =>
    intro i h
    simp at h
  | cons a rest ih =>
    intro i h
    match i with
    | 0 => simp
    | i + 1 =>
      simp only [List.set_cons_succ, List.take_succ_cons, List.cons_append,
        List.cons.injEq, true_and]
      exact ih i (by simpa using h)

lemma copyFinalOutputLoop_all_found {H : Type} (tok_names : List String)
    (tok_values : List (TensorVal H)) :
    ∀ (onames : List String) (i : Nat) (vals : List (TensorVal H)),
      vals.length = i + onames.length →
      (∀ n ∈ onames, n ∈ tok_names) →
      copyFinalOutputLoop tok_names tok_values i onames vals =
        (vals.take i ++ onames.map (fun n =>
          tok_values.getD (Contains tok_names n).2.toNat default), none) := by
  intro onames
  induction onames with
  | nil =>
    intro i vals hlen _
    simp only [List.length_nil] at hlen
    simp only [copyFinalOutputLoop, List.map_nil, List.append_nil]
    rw [List.take_of_length_le (by omega)]
  | cons n rest ih =>
    intro i vals hlen hall
    have hlen2 : vals.length = i + rest.length + 1 := by
      simp only [List.length_cons] at hlen
      omega
    have hn : n ∈ tok_names := hall n (List.mem_cons_self n rest)
    have hc : (Contains tok_names n).1 = true :=
      (Contains_fst_true_iff _ _).mpr hn
    simp only [copyFinalOutputLoop, hc, if_true]
    rw [ih (i + 1) _ (by simp only [List.length_set]; omega)
      (fun z hz => hall z (List.mem_cons_of_mem _ hz))]
    rw [take_succ_set _ vals i (by omega)]
    simp

lemma copyFinalOutputLoop_missing {H : Type} (tok_names : List String)
    (tok_values : List (TensorVal H)) :
    ∀ (onames : List String) (i : Nat) (vals : List (TensorVal H)),
      (∃ n, n ∈ onames ∧ n ∉ tok_names) →
      ∃ n, n ∈ onames ∧ n ∉ tok_names ∧
        (copyFinalOutputLoop tok_names tok_values i onames vals).2 =
          some ("Error: Output " ++ n ++
            " is not produced by the final stage\n") := by
  intro onames
  induction onames with
  | nil =>
    intro i vals hex
    rcases hex with ⟨n, hn, _⟩
    simp at hn
  | cons n rest ih =>
    intro i vals hex
    by_cases hc : (Contains tok_names n).1 = true
    · have hn : n ∈ tok_names := (Contains_fst_true_iff _ _).mp hc
      rcases hex with ⟨m, hm, hmnot⟩
      rcases List.mem_cons.mp hm with rfl | hm2
      · exact absurd hn hmnot
      · rcases ih (i + 1)
          (vals.set i (tok_values.getD (Contains tok_names n).2.toNat default))
          ⟨m, hm2, hmnot⟩ with ⟨m2, hm3, hm4, hres⟩
        refine ⟨m2, List.mem_cons_of_mem _ hm3, hm4, ?_⟩
        simpa [copyFinalOutputLoop, hc] using hres
    · have hn : n ∉ tok_names := fun hmem =>
        hc ((Contains_fst_true_iff _ _).mpr hmem)
      refine ⟨n, List.mem_cons_self n rest, hn, ?_⟩
      simp [copyFinalOutputLoop, hc]

/-- Claim C7: `CopyFinalOutput` transfers, for each caller-requested output
name, the token tensor at the first position whose carried name matches it
into the response slot's values at the name's slot index, returning success;
it returns a failure, whose message reports that the output is not produced
by the final stage (the source routes it through `HandleAndReturnFailure`,
which drains all stages and creates an `ORT_FAIL` status), if and only if
some requested name is absent from the token's carried names. -/
theorem CopyFinalOutput_spec {H : Type} (token : Token H) (resp : OrtResp H)
    (hlen : resp.output_values.length = resp.output_names.length) :
    ((CopyFinalOutput token resp).2 = none ↔
      ∀ n ∈ resp.output_names, n ∈ token.ort_value_names) ∧
    ((∀ n ∈ resp.output_names, n ∈ token.ort_value_names) →
      (CopyFinalOutput token resp).1 = resp.output_names.map (fun n =>
        token.ort_values.getD (Contains token.ort_value_names n).2.toNat
          default) ∧
      ∀ n ∈ resp.output_names, ∃ i, ∃ hi : i < token.ort_value_names.length,
        (Contains token.ort_value_names n).2 = (i : Int) ∧
        token.ort_value_names[i] = n ∧
        ∀ j, ∀ hj : j < token.ort_value_names.length, j < i →
          token.ort_value_names[j] ≠ n) ∧
    (∀ msg, (CopyFinalOutput token resp).2 = some msg →
      ∃ n ∈ resp.output_names, n ∉ token.ort_value_names ∧
        msg = "Error: Output " ++ n ++
          " is not produced by the final stage\n") := by
  have hfound : (∀ n ∈ resp.output_names, n ∈ token.ort_value_names) →
      CopyFinalOutput token resp =
        (resp.output_names.map (fun n =>
          token.ort_values.getD (Contains token.ort_value_names n).2.toNat
            default), none) := by
    intro hall
    unfold CopyFinalOutput
    rw [copyFinalOutputLoop_all_found token.ort_value_names token.ort_values
      resp.output_names 0 resp.output_values (by omega) hall]
    simp
  refine ⟨⟨?_, fun hall => by rw [hfound hall]⟩, ?_, ?_⟩
  · intro hnone
    by_contra hcon
    push_neg at hcon
    rcases copyFinalOutputLoop_missing token.ort_value_names token.ort_values
      resp.output_names 0 resp.output_values
      ⟨hcon.choose, hcon.choose_spec⟩ with ⟨n, _, _, hres⟩
    unfold CopyFinalOutput at hnone
    rw [hnone] at hres
    exact Option.noConfusion hres
  · intro hall
    refine ⟨by rw [hfound hall], ?_⟩
    intro n hn
    exact Contains_snd_spec token.ort_value_names n (hall n hn)
  · intro msg hmsg
    by_cases hall : ∀ n ∈ resp.output_names, n ∈ token.ort_value_names
    · rw [hfound hall] at hmsg
      exact Option.noConfusion hmsg
    · push_neg at hall
      rcases copyFinalOutputLoop_missing token.ort_value_names
        token.ort_values resp.output_names 0 resp.output_values
        ⟨hall.choose, hall.choose_spec⟩ with ⟨n, hn1, hn2, hres⟩
      unfold CopyFinalOutput at hmsg
      rw [hmsg] at hres
      exact ⟨n, hn1, hn2, Option.some.inj hres⟩

/-- Witness for `CopyFinalOutput_spec`: a token carrying `logits` and a
response slot requesting `logits` (half data modelled by integers). -/
theorem CopyFinalOutput_spec_witness :
    ((CopyFinalOutput (H := Int)
        ⟨1, 0, ["logits"], [⟨[1, 1, 2], TensorData.f16 [3, 7]⟩], ""⟩
        ⟨["logits"], [⟨[], TensorData.i64 []⟩]⟩).2 = none ↔
      ∀ n ∈ ["logits"], n ∈ ["logits"]) ∧
    ((∀ n ∈ ["logits"], n ∈ ["logits"]) →
      (CopyFinalOutput (H := Int)
        ⟨1, 0, ["logits"], [⟨[1, 1, 2], TensorData.f16 [3, 7]⟩], ""⟩
        ⟨["logits"], [⟨[], TensorData.i64 []⟩]⟩).1 =
        (["logits"] : List String).map (fun n =>
          [(⟨[1, 1, 2], TensorData.f16 [3, 7]⟩ : TensorVal Int)].getD
            (Contains ["logits"] n).2.toNat default) ∧
      ∀ n ∈ ["logits"], ∃ i, ∃ hi : i < (["logits"] : List String).length,
        (Contains ["logits"] n).2 = (i : Int) ∧
        (["logits"] : List String)[i] = n ∧
        ∀ j, ∀ hj : j < (["logits"] : List String).length, j < i →
          (["logits"] : List String)[j] ≠ n) ∧
    (∀ msg, (CopyFinalOutput (H := Int)
        ⟨1, 0, ["logits"], [⟨[1, 1, 2], TensorData.f16 [3, 7]⟩], ""⟩
        ⟨["logits"], [⟨[], TensorData.i64 []⟩]⟩).2 = some msg →
      ∃ n ∈ ["logits"], n ∉ ["logits"] ∧
        msg = "Error: Output " ++ n ++
          " is not produced by the final stage\n") :=
  CopyFinalOutput_spec
    ⟨1, 0, ["logits"], [⟨[1, 1, 2], TensorData.f16 [3, 7]⟩], ""⟩
    ⟨["logits"], [⟨[], TensorData.i64 []⟩]⟩ (by decide)

/-- Claim C4: at an inter-step transition that is neither the final step nor
an all-EOS termination, the orchestrator rewrites the token so that its
carried names are exactly `[input_ids_name, position_ids_name]` and its
carried values are two host tensors of shape `[batch_size, 1]`: the new input
ids are the argmax ids derived from the logits, and every lane of the new
position ids equals `orig_input_seq_len + step_id - 1` (identical across all
batch lanes); the rewritten token is scheduled back to stage 0. -/
theorem inter_step_token_rewrite {H F : Type} [LinearOrder F] (h2f : H → F)
    (pcfg : PipelineConfig) (num_steps : Int) (st : OrchState H)
    (token : Token H) (frame0 : Frame)
    (hframe : st.req_frame_map.lookup token.req_id = some frame0)
    (herr : token.error_msg = "")
    (hwrap : (frame0.stage_id + 1) % pcfg.num_stages = 0)
    (hstep : ((token.step_id + 1 : Nat) : Int) ≠ num_steps)
    (hlog : (Contains token.ort_value_names pcfg.logits_name).1 = true)
    (heos : (newIdsResult h2f pcfg frame0.batch_size
      token).are_all_input_ids_eos_tokens = false) :
    processOneResponse h2f pcfg num_steps st token =
      ({ req_frame_map := st.req_frame_map.map (fun p =>
           if p.1 = token.req_id then
             (p.1, { frame0 with stage_id := 0 }) else p)
         req_processed := st.req_processed
         resp_list := st.resp_list
         scheduled := st.scheduled ++ [(0,
           { req_id := token.req_id
             step_id := token.step_id + 1
             ort_value_names := [pcfg.input_ids_name, pcfg.position_ids_name]
             ort_values :=
               [⟨[frame0.batch_size, 1], TensorData.i64
                  (newIdsResult h2f pcfg frame0.batch_size token).input_ids⟩,
                ⟨[frame0.batch_size, 1], TensorData.i64
                  (List.replicate frame0.batch_size.toNat
                    (frame0.orig_input_seq_len +
                      ((token.step_id + 1 : Nat) : Int) - 1))⟩]
             error_msg := "" })] }, none) := by
  unfold processOneResponse
  rw [hframe]
  simp only [herr, ne_eq, not_true_eq_false, if_false, ite_false,
    reduceIte, hwrap, hlog]
  rw [if_neg hstep]
  simp only [Bool.true_eq_false, Bool.false_eq_true, if_false, reduceIte,
    heos, GetNewPosnIds]
  simp only [newIdsResult, GetNewInputIdsFromLogits]

/-- Witness for `inter_step_token_rewrite`: concrete single-stage pipeline,
batch 1, logits `[3, 7]` with `eos_token = 0` (argmax 1, not EOS), step 0 of
5 steps. -/
theorem inter_step_token_rewrite_witness :
    processOneResponse (fun x => x : Int → Int)
      { eos_token := 0, input_ids_name := "input_ids",
        position_ids_name := "position_ids", logits_name := "logits",
        max_seq_len := 16, model_config_vec := [], num_stages := 1 }
      5
      { req_frame_map := [(1, ⟨0, 1, 4, 0⟩)], req_processed := 0,
        resp_list := [⟨["logits"], [⟨[], TensorData.i64 []⟩]⟩],
        scheduled := [] }
      ⟨1, 0, ["logits"], [⟨[1, 1, 2], TensorData.f16 [3, 7]⟩], ""⟩ =
      ({ req_frame_map := ([(1, (⟨0, 1, 4, 0⟩ : Frame))]).map (fun p =>
           if p.1 = (1 : Nat) then
             (p.1, { (⟨0, 1, 4, 0⟩ : Frame) with stage_id := 0 }) else p)
         req_processed := 0
         resp_list := [⟨["logits"], [⟨[], TensorData.i64 []⟩]⟩]
         scheduled := [] ++ [(0,
           { req_id := 1
             step_id := 0 + 1
             ort_value_names := ["input_ids", "position_ids"]
             ort_values :=
               [⟨[(1 : Int), 1], TensorData.i64
                  (newIdsResult (fun x => x : Int → Int)
                    { eos_token := 0, input_ids_name := "input_ids",
                      position_ids_name := "position_ids",
                      logits_name := "logits", max_seq_len := 16,
                      model_config_vec := [], num_stages := 1 }
                    (1 : Int)
                    ⟨1, 0, ["logits"],
                      [⟨[1, 1, 2], TensorData.f16 [3, 7]⟩], ""⟩).input_ids⟩,
                ⟨[(1 : Int), 1], TensorData.i64
                  (List.replicate (1 : Int).toNat
                    ((4 : Int) + ((0 + 1 : Nat) : Int) - 1))⟩]
             error_msg := "" })] }, none) :=
  inter_step_token_rewrite (fun x => x : Int → Int)
    { eos_token := 0, input_ids_name := "input_ids",
      position_ids_name := "position_ids", logits_name := "logits",
      max_seq_len := 16, model_config_vec := [], num_stages := 1 }
    5
    { req_frame_map := [(1, ⟨0, 1, 4, 0⟩)], req_processed := 0,
      resp_list := [⟨["logits"], [⟨[], TensorData.i64 []⟩]⟩],
      scheduled := [] }
    ⟨1, 0, ["logits"], [⟨[1, 1, 2], TensorData.f16 [3, 7]⟩], ""⟩
    ⟨0, 1, 4, 0⟩
    (by decide) rfl (by decide) (by decide) (by decide) (by decide)

/-- Claim C5: when at a step transition every batch lane's predicted next
token equals `eos_token` (and the step count is not yet exhausted), the
orchestrator terminates the request early: `CopyFinalOutput` into the
caller's response slot, erase the request's frame, count the request done,
and schedule no further closure, even though `step_id < num_steps`. -/
theorem all_eos_early_termination {H F : Type} [LinearOrder F] (h2f : H → F)
    (pcfg : PipelineConfig) (num_steps : Int) (st : OrchState H)
    (token : Token H) (frame0 : Frame)
    (hframe : st.req_frame_map.lookup token.req_id = some frame0)
    (herr : token.error_msg = "")
    (hwrap : (frame0.stage_id + 1) % pcfg.num_stages = 0)
    (hstep : ((token.step_id + 1 : Nat) : Int) < num_steps)
    (hlog : (Contains token.ort_value_names pcfg.logits_name).1 = true)
    (heos : (newIdsResult h2f pcfg frame0.batch_size
      token).are_all_input_ids_eos_tokens = true)
    (hcopy : (CopyFinalOutput token
      (st.resp_list.getD frame0.req_index default)).2 = none) :
    processOneResponse h2f pcfg num_steps st token =
      ({ req_frame_map := (st.req_frame_map.map (fun p =>
           if p.1 = token.req_id then
             (p.1, { frame0 with stage_id := 0 }) else p)).filter
             (fun p => p.1 != token.req_id)
         req_processed := st.req_processed + 1
         resp_list := st.resp_list.set frame0.req_index
           { st.resp_list.getD frame0.req_index default with
             output_values := (CopyFinalOutput token
               (st.resp_list.getD frame0.req_index default)).1 }
         scheduled := st.scheduled }, none) := by
  unfold processOneResponse
  rw [hframe]
  simp only [herr, ne_eq, not_true_eq_false, if_false, ite_false,
    reduceIte, hwrap, hlog]
  rw [if_neg (ne_of_lt hstep)]
  simp only [Bool.true_eq_false, Bool.false_eq_true, if_false, reduceIte,
    heos, if_true]
  unfold finishRequest
  dsimp only
  rw [hcopy]

/-- Witness for `all_eos_early_termination`: single-stage pipeline, batch 2,
logits `[0, 5, 0, 5]` of shape `[2, 1, 2]` with `eos_token = 1` — both lanes
argmax to 1, so the request finishes after step 1 of 5. -/
theorem all_eos_early_termination_witness :
    processOneResponse (fun x => x : Int → Int)
      { eos_token := 1, input_ids_name := "input_ids",
        position_ids_name := "position_ids", logits_name := "logits",
        max_seq_len := 16, model_config_vec := [], num_stages := 1 }
      5
      { req_frame_map := [(1, ⟨0, 2, 3, 0⟩)], req_processed := 0,
        resp_list := [⟨["logits"], [⟨[], TensorData.i64 []⟩]⟩],
        scheduled := [] }
      ⟨1, 0, ["logits"], [⟨[2, 1, 2], TensorData.f16 [0, 5, 0, 5]⟩], ""⟩ =
      ({ req_frame_map := (([(1, (⟨0, 2, 3, 0⟩ : Frame))]).map (fun p =>
           if p.1 = (1 : Nat) then
             (p.1, { (⟨0, 2, 3, 0⟩ : Frame) with stage_id := 0 }) else p)).filter
             (fun p => p.1 != (1 : Nat))
         req_processed := 0 + 1
         resp_list := ([⟨["logits"], [⟨[], TensorData.i64 []⟩]⟩] :
             List (OrtResp Int)).set 0
           { ([⟨["logits"], [⟨[], TensorData.i64 []⟩]⟩] :
               List (OrtResp Int)).getD 0 default with
             output_values := (CopyFinalOutput
               ⟨1, 0, ["logits"], [⟨[2, 1, 2], TensorData.f16 [0, 5, 0, 5]⟩],
                 ""⟩
               (([⟨["logits"], [⟨[], TensorData.i64 []⟩]⟩] :
                 List (OrtResp Int)).getD 0 default)).1 }
         scheduled := [] }, none) :=
  all_eos_early_termination (fun x => x : Int → Int)
    { eos_token := 1, input_ids_name := "input_ids",
      position_ids_name := "position_ids", logits_name := "logits",
      max_seq_len := 16, model_config_vec := [], num_stages := 1 }
    5
    { req_frame_map := [(1, ⟨0, 2, 3, 0⟩)], req_processed := 0,
      resp_list := [⟨["logits"], [⟨[], TensorData.i64 []⟩]⟩],
      scheduled := [] }
    ⟨1, 0, ["logits"], [⟨[2, 1, 2], TensorData.f16 [0, 5, 0, 5]⟩], ""⟩
    ⟨0, 2, 3, 0⟩
    (by decide) rfl (by decide) (by decide) (by decide) (by decide)
    (by decide)

lemma validateRequestLoop_code {H : Type} :
    ∀ (reqs : List (OrtReq H)) (resps : List (OrtResp H)) (i : Nat)
      (st : StatusVal),
      validateRequestLoop i reqs resps = some st →
      st.code = OrtErrorCode.ORT_INVALID_ARGUMENT := by
  intro reqs
  induction reqs with
  | nil =>
    intro resps i st h
    simp [validateRequestLoop] at h
  | cons r rs ih =>
    intro resps i st h
    cases resps with
    | nil => simp [validateRequestLoop] at h
    | cons p ps =>
      unfold validateRequestLoop at h
      by_cases h1 : r.input_names.length ≠ r.input_values.length
      · rw [if_pos h1] at h
        cases h
        rfl
      · rw [if_neg h1] at h
        by_cases h2 : p.output_names.length ≠ p.output_values.length
        · rw [if_pos h2] at h
          cases h
          rfl
        · rw [if_neg h2] at h
          exact ih ps (i + 1) st h

lemma validateRequestLoop_isSome {H : Type} :
    ∀ (reqs : List (OrtReq H)) (resps : List (OrtResp H)) (i : Nat),
      (∃ j, ∃ hr : j < reqs.length, ∃ hp : j < resps.length,
        reqs[j].input_names.length ≠ reqs[j].input_values.length ∨
        resps[j].output_names.length ≠ resps[j].output_values.length) →
      (validateRequestLoop i reqs resps).isSome = true := by
  intro reqs
  induction reqs with
  | nil =>
    intro resps i hex
    rcases hex with ⟨j, hr, _, _⟩
    simp at hr
  | cons r rs ih =>
    intro resps i hex
    cases resps with
    | nil =>
      rcases hex with ⟨j, hr, hp, _⟩
      simp at hp
    | cons p ps =>
      unfold validateRequestLoop
      by_cases h1 : r.input_names.length ≠ r.input_values.length
      · rw [if_pos h1]
        rfl
      · rw [if_neg h1]
        by_cases h2 : p.output_names.length ≠ p.output_values.length
        · rw [if_pos h2]
          rfl
        · rw [if_neg h2]
          apply ih ps (i + 1)
          rcases hex with ⟨j, hr, hp, hj⟩
          match j with
          | 0 =>
            rcases hj with hj | hj
            · exact absurd (by simpa using hj) h1
            · exact absurd (by simpa using hj) h2
          | j + 1 =>
            exact ⟨j, by simpa using hr, by simpa using hp, by simpa using hj⟩

/-- Claim C8: when the request and response lists have different lengths, or
some request slot's input name and value counts differ, or some response
slot's output name and value counts differ, `Run` returns an
`ORT_INVALID_ARGUMENT` status, creates no frame, and schedules no closure
onto any stage. -/
theorem run_invalid_argument {H F : Type} [LinearOrder F] (h2f : H → F)
    (pcfg : PipelineConfig) (req_list : List (OrtReq H))
    (resp_list : List (OrtResp H)) (num_steps : Int)
    (worker_tokens : List (Token H))
    (hbad : req_list.length ≠ resp_list.length ∨
      ∃ j, ∃ hr : j < req_list.length, ∃ hp : j < resp_list.length,
        req_list[j].input_names.length ≠ req_list[j].input_values.length ∨
        resp_list[j].output_names.length ≠
          resp_list[j].output_values.length) :
    ∃ msg, Run h2f pcfg req_list resp_list num_steps worker_tokens =
      ({ req_frame_map := [], req_processed := 0, resp_list := resp_list,
         scheduled := [] },
       some ⟨OrtErrorCode.ORT_INVALID_ARGUMENT, msg⟩) := by
  have hvr : ∃ msg, ValidateRequest req_list resp_list =
      some ⟨OrtErrorCode.ORT_INVALID_ARGUMENT, msg⟩ := by
    by_cases hl : req_list.length ≠ resp_list.length
    · exact ⟨"Size of request and response lists differ.",
        by simp [ValidateRequest, hl]⟩
    · rcases hbad with hbad | hbad
      · exact absurd hbad hl
      · have hsome := validateRequestLoop_isSome req_list resp_list 0 hbad
        rcases Option.isSome_iff_exists.mp hsome with ⟨st, hst⟩
        have hcode := validateRequestLoop_code req_list resp_list 0 st hst
        refine ⟨st.msg, ?_⟩
        simp only [ValidateRequest, hl, if_false, reduceIte]
        rw [hst]
        congr 1
        cases st
        simp_all
  rcases hvr with ⟨msg, hmsg⟩
  refine ⟨msg, ?_⟩
  unfold Run
  rw [hmsg]

/-- Witness for `run_invalid_argument`: one request slot carrying one input
name but zero input values. -/
theorem run_invalid_argument_witness :
    ∃ msg, Run (fun x => x : Int → Int) pcfgEx
      [⟨["input_ids"], []⟩] [⟨[], []⟩] 1 [] =
      ({ req_frame_map := [], req_processed := 0,
         resp_list := [⟨[], []⟩], scheduled := [] },
       some ⟨OrtErrorCode.ORT_INVALID_ARGUMENT, msg⟩) :=
  run_invalid_argument (fun x => x : Int → Int) pcfgEx
    [⟨["input_ids"], []⟩] [⟨[], []⟩] 1 []
    (Or.inr ⟨0, by decide, by decide, Or.inl (by decide)⟩)

/-- Claim C9 (code bug in the source): `PipelineSession::Validate` is an
unimplemented stub (`// TODO validate`) that returns `true` for every
configuration, so a `PipelineConfig` whose `past_input_names` and
`present_output_names` have different lengths passes the constructor's
`ORT_ENFORCE` and construction proceeds instead of failing with a
configuration error. -/
theorem Validate_accepts_mismatched_state_names :
    (mismatchedStateCfg.model_config_vec.getD 0
        default).past_input_names.length ≠
      (mismatchedStateCfg.model_config_vec.getD 0
        default).present_output_names.length ∧
    Validate mismatchedStateCfg = true :=
  ⟨by decide, rfl⟩

/-- Claim C10: `Run` on empty request and response lists succeeds
immediately for any `num_steps` and any queue contents: no frame is created,
no closure is scheduled, the response queue is never consulted (the result
does not depend on `worker_tokens`), and the response list is unchanged
(empty). -/
theorem run_empty_lists {H F : Type} [LinearOrder F] (h2f : H → F)
    (pcfg : PipelineConfig) (num_steps : Int)
    (worker_tokens : List (Token H)) :
    Run h2f pcfg ([] : List (OrtReq H)) ([] : List (OrtResp H)) num_steps
        worker_tokens =
      ({ req_frame_map := [], req_processed := 0, resp_list := [],
         scheduled := [] }, none) := by
  unfold Run ValidateRequest validateRequestLoop
    SetupAndScheduleAllRequestsToStage0 setupLoop
  cases worker_tokens with
  | nil => simp [processResponses]
  | cons t rest => simp [processResponses]

/-- Counterexample to claim C6 as stated: a concrete `Run` in which request
1 completes and its response slot is populated by `CopyFinalOutput`, after
which request 2's worker reports an exception; `Run` returns a failure
status, yet the caller's response list differs from its initial contents —
the failure did not leave the response slots unchanged. -/
theorem run_failure_mutates_completed_resp_slot :
    (Run (fun x => x : Int → Int) pcfgEx reqsEx respsEx 1 toksEx).2.isSome =
      true ∧
    (Run (fun x => x : Int → Int) pcfgEx reqsEx respsEx 1
      toksEx).1.resp_list ≠ respsEx := by
  decide

/-- Claim C6 (amended): `Run` reports no partial success — it returns a
single status — and when it fails at request validation the caller's
response slots are unchanged; but a failure during response processing can
leave response slots of requests that completed before the failure already
populated. -/
theorem run_validation_failure_resp_unchanged {H F : Type} [LinearOrder F]
    (h2f : H → F) (pcfg : PipelineConfig) (req_list : List (OrtReq H))
    (resp_list : List (OrtResp H)) (num_steps : Int)
    (worker_tokens : List (Token H)) (e : StatusVal)
    (hv : ValidateRequest req_list resp_list = some e) :
    Run h2f pcfg req_list resp_list num_steps worker_tokens =
      ({ req_frame_map := [], req_processed := 0, resp_list := resp_list,
         scheduled := [] }, some e) := by
  unfold Run
  rw [hv]

/-- Witness for `run_validation_failure_resp_unchanged`: a slot whose name
and value counts differ triggers validation failure and the response list
comes back exactly as supplied. -/
theorem run_validation_failure_resp_unchanged_witness :
    Run (fun x => x : Int → Int) pcfgEx [⟨["input_ids"], []⟩]
        [⟨["logits"], [⟨[], TensorData.i64 []⟩]⟩] 1 [] =
      ({ req_frame_map := [], req_processed := 0,
         resp_list := [⟨["logits"], [⟨[], TensorData.i64 []⟩]⟩],
         scheduled := [] },
       some ⟨OrtErrorCode.ORT_INVALID_ARGUMENT,
         "Size of request names and OrtValues differ for index 0"⟩) :=
  run_validation_failure_resp_unchanged (fun x => x : Int → Int) pcfgEx
    [⟨["input_ids"], []⟩] [⟨["logits"], [⟨[], TensorData.i64 []⟩]⟩] 1 []
    ⟨OrtErrorCode.ORT_INVALID_ARGUMENT,
      "Size of request names and OrtValues differ for index 0"⟩
    (by decide)

end MultiGpuPipeline
